import Mathlib

/-!
# Trip-planner core: shallow embedding and verification

This file embeds the core logic of the travel-itinerary generator:

* the itinerary synthesizer `parseTravel` (city detection by substring,
  date detection by a three-branch regex, round-robin day generation with
  randomized POI selection, and a fixed fallback on failure);
* the map/routing orchestration `addMarkersToMap` (marker placement,
  per-day route requests, a route-stat completion barrier firing a single
  stats callback, and viewport bounds fitting), modelled as an event trace
  over an explicit aggregation state;
* the marker highlight operation `highlightMarker`.

Randomness (`Math.random` values and comparator-driven shuffles) is supplied
by an explicit `Oracle`; JavaScript sparse-array index assignment is modelled
by `jsSet`; `Math.round`/`Math.floor` are modelled on `ℚ`.
-/

/-- A named city with coordinates, as stored in the catalog. -/
structure City where
  name : String
  lat : ℚ
  lng : ℚ
deriving DecidableEq

/-- Per-city catalog entry: attraction names and food names. -/
structure CatalogEntry where
  spots : List String
  foods : List String
deriving DecidableEq

/-- Location kind: attraction (`spot`) or food stop (`food`). -/
inductive LocType where
  | spot
  | food
deriving DecidableEq

/-- One visitable point of a day, as built by the synthesizer. -/
structure Location where
  name : String
  lat : ℚ
  lng : ℚ
  time : String
  city : String
  type : LocType
deriving DecidableEq

/-- One day of an itinerary. -/
structure Day where
  day : Nat
  date : String
  city : String
  locations : List Location
  distance : ℚ
  duration : ℚ
deriving DecidableEq

/-- Result of `parseTravel`: detected cities, primary city and the day list. -/
structure ParseResult where
  cities : List City
  primaryCity : City
  itinerary : List Day
deriving DecidableEq

/-- Modelled from the spec: the city list of the static Catalog module
(`data/attractions.js`), which is not part of the corpus.  The spec fixes a
default city 강릉 (used when detection finds nothing, taken at index 3), and
the entries follow the catalog as it appears inline in the repository's
earlier single-file version. -/
def citiesM : List City :=
  [⟨"서울", 37.5665, 126.978⟩, ⟨"부산", 35.1796, 129.0756⟩,
   ⟨"제주도", 33.4996, 126.5312⟩, ⟨"강릉", 37.7519, 128.8761⟩,
   ⟨"속초", 38.207, 128.5918⟩, ⟨"양양", 38.0754, 128.619⟩,
   ⟨"전주", 35.8242, 127.148⟩, ⟨"경주", 35.8562, 129.2247⟩,
   ⟨"여수", 34.7604, 127.6622⟩]

/-- Placeholder city used to model an out-of-range JavaScript array access. -/
def dummyCity : City := ⟨"", 0, 0⟩

/-- JavaScript `String.prototype.includes`: substring containment test. -/
def strIncludes (s pat : String) : Bool :=
  s.toList.tails.any (fun t => pat.toList.isPrefixOf t)

/-- Character class `\d` of the date regex. -/
def isDigitCh (c : Char) : Bool := c.isDigit

/-- Character class `\s` of the date regex (the whitespace characters that
can occur in the inputs considered here). -/
def isSpaceCh (c : Char) : Bool :=
  c = ' ' || c = '\t' || c = '\n' || c = '\r' || c.val = 11 || c.val = 12

/-- Backtracking matcher element `\d{1,2}` (greedy: try two digits, then
one).  A parser maps an input suffix to the list of possible remaining
suffixes in backtracking priority order. -/
def pDigits12 : List Char → List (List Char)
  | c1 :: c2 :: rest =>
      if isDigitCh c1 then
        if isDigitCh c2 then [rest, c2 :: rest] else [c2 :: rest]
      else []
  | [c1] => if isDigitCh c1 then [[]] else []
  | [] => []

/-- Matcher element `\d{4}` (exactly four digits). -/
def pDigits4 : List Char → List (List Char)
  | a :: b :: c :: d :: rest =>
      if isDigitCh a && isDigitCh b && isDigitCh c && isDigitCh d then [rest] else []
  | _ => []

/-- Matcher element `x?` for a literal character (greedy: try consuming it
first). -/
def pOpt (ch : Char) : List Char → List (List Char)
  | c :: rest => if c = ch then [rest, c :: rest] else [c :: rest]
  | [] => [[]]

/-- Matcher element for a single literal character. -/
def pLit (ch : Char) : List Char → List (List Char)
  | c :: rest => if c = ch then [rest] else []
  | [] => []

/-- Matcher element `\s*` (greedy: longest consumption first). -/
def pSpaces : List Char → List (List Char)
  | [] => [[]]
  | c :: rest => if isSpaceCh c then pSpaces rest ++ [c :: rest] else [c :: rest]

/-- Sequencing of two backtracking matcher elements. -/
def pSeq (p q : List Char → List (List Char)) : List Char → List (List Char) :=
  fun s => (p s).flatMap q

/-- First alternative of the date regex: `\d{1,2}월?\s*\d{1,2}일?`. -/
def pDate1 : List Char → List (List Char) :=
  pSeq pDigits12 (pSeq (pOpt '월') (pSeq pSpaces (pSeq pDigits12 (pOpt '일'))))

/-- Second alternative of the date regex: `\d{4}-\d{1,2}-\d{1,2}`. -/
def pDate2 : List Char → List (List Char) :=
  pSeq pDigits4 (pSeq (pLit '-') (pSeq pDigits12 (pSeq (pLit '-') pDigits12)))

/-- Third alternative of the date regex: `\d{1,2}/\d{1,2}`. -/
def pDate3 : List Char → List (List Char) :=
  pSeq pDigits12 (pSeq (pLit '/') pDigits12)

/-- Try the regex at one position: alternatives in source order, each with
full backtracking; returns the number of consumed characters on success. -/
def matchDateAt (s : List Char) : Option Nat :=
  match (pDate1 s ++ pDate2 s ++ pDate3 s).head? with
  | some rem => some (s.length - rem.length)
  | none => none

/-- Global scan of the date regex (`String.prototype.match` with the `g`
flag): at each position try a match; on success record the matched text and
continue after it, otherwise advance one character.  `fuel` bounds the
recursion; matches consume at least one character, so fuel equal to the
input length is enough. -/
def scanAux : Nat → List Char → List String
  | 0, _ => []
  | _ + 1, [] => []
  | fuel + 1, c :: rest =>
      match matchDateAt (c :: rest) with
      | some n =>
          let k := max n 1
          String.mk ((c :: rest).take k) :: scanAux fuel ((c :: rest).drop k)
      | none => scanAux fuel rest

/-- All date tokens recognized in the input, in order of appearance. -/
def scanDates (input : String) : List String :=
  scanAux input.toList.length input.toList

/-- The cities whose catalog name occurs in the input, in catalog order;
falls back to the default city (catalog index 3, 강릉) when none occurs. -/
def detectedCitiesOf (input : String) : List City :=
  let d := citiesM.filter (fun c => strIncludes input c.name)
  if d.length = 0 then [citiesM.getD 3 dummyCity] else d

/-- The fixed default date list substituted when fewer than two date tokens
are recognized. -/
def defaultDates : List String :=
  ["7월 25일", "7월 26일", "7월 27일", "7월 28일", "7월 29일"]

/-- First default date label. -/
def defaultDate1 : String := "7월 25일"

/-- Second default date label. -/
def defaultDate2 : String := "7월 26일"

/-- Third default date label. -/
def defaultDate3 : String := "7월 27일"

/-- Error text thrown when the generated day list is empty. -/
def errEmptyItinerary : String := "일정이 생성되지 않았습니다"

/-- Concrete input with no city token and no date token. -/
def inputNone : String := ""

/-- Concrete input naming two cataloged cities and three date tokens. -/
def inputMulti : String := "강릉과 속초 7월 25일 7월 26일 7월 27일"

/-- The date list actually used: recognized dates when at least two were
found, the default list otherwise. -/
def effectiveDates (input : String) : List String :=
  let m := scanDates input
  if m.length < 2 then defaultDates else m

/-- Day-count cap: `min(dates.length, detectedCities.length > 1 ? 5 : 3)`. -/
def maxDaysOf (input : String) : Nat :=
  min (effectiveDates input).length (if 1 < (detectedCitiesOf input).length then 5 else 3)

/-- The random values consumed by one `parseTravel` run.  `spotRand`/`foodRand`
model the `Math.random()` calls sizing the per-day selections; the `shuffle`
fields model `Array.prototype.sort` under a random comparator (the result is
some rearrangement of the input); the jitter fields model the `Math.random()`
calls displacing each location around its city's coordinate. -/
structure Oracle where
  spotRand : Nat → ℚ
  foodRand : Nat → ℚ
  shuffleSpots : Nat → List String → List String
  shuffleFoods : Nat → List String → List String
  spotJitterLat : Nat → Nat → ℚ
  spotJitterLng : Nat → Nat → ℚ
  foodJitterLat : Nat → Nat → ℚ
  foodJitterLng : Nat → Nat → ℚ
  shuffleLocs : Nat → List Location → List Location

/-- `getRandomItems`: shuffle a copy of the list and take the first `count`
elements. -/
def getRandomItems (shuffle : List String → List String) (arr : List String)
    (count : Nat) : List String :=
  (shuffle arr).take count

/-- Build the spot locations of day `i` from the chosen spot names
(`.map((name, idx) => ...)` with running index `idx`). -/
def mkSpotLocs (c : City) (orc : Oracle) (i : Nat) : Nat → List String → List Location
  | _, [] => []
  | idx, nm :: rest =>
      { name := nm,
        lat := c.lat + (orc.spotJitterLat i idx - 0.5) * 0.02,
        lng := c.lng + (orc.spotJitterLng i idx - 0.5) * 0.02,
        time := toString (9 + idx * 2) ++ ":00",
        city := c.name, type := LocType.spot } :: mkSpotLocs c orc i (idx + 1) rest

/-- Build the food locations of day `i` from the chosen food names. -/
def mkFoodLocs (c : City) (orc : Oracle) (i : Nat) : Nat → List String → List Location
  | _, [] => []
  | idx, nm :: rest =>
      { name := nm,
        lat := c.lat + (orc.foodJitterLat i idx - 0.5) * 0.02,
        lng := c.lng + (orc.foodJitterLng i idx - 0.5) * 0.02,
        time := toString (11 + idx * 2) ++ ":30",
        city := c.name, type := LocType.food } :: mkFoodLocs c orc i (idx + 1) rest

/-- Build day `i` (0-indexed) of the itinerary: round-robin city choice,
catalog lookup with empty default, randomized selection sizes
(`2 + floor(random()*2)` spots, `1 + floor(random()*2)` foods, both capped
by the catalog list length), selection by shuffle-then-take, and a final
shuffle of the concatenated locations.  The day's date is `dates[i]` when
that is a non-empty string, else the substitute label `"{i+1}일차"`. -/
def buildDay (cat : String → Option CatalogEntry) (orc : Oracle)
    (detected : List City) (dates : List String) (i : Nat) : Day :=
  let cityIndex := i % detected.length
  let currentCity := detected.getD cityIndex dummyCity
  let cityData := (cat currentCity.name).getD ⟨[], []⟩
  let numSpots := min cityData.spots.length (2 + (⌊orc.spotRand i * 2⌋).toNat)
  let numFoods := min cityData.foods.length (1 + (⌊orc.foodRand i * 2⌋).toNat)
  let chosenSpots := getRandomItems (orc.shuffleSpots i) cityData.spots numSpots
  let chosenFoods := getRandomItems (orc.shuffleFoods i) cityData.foods numFoods
  let spots := mkSpotLocs currentCity orc i 0 chosenSpots
  let foods := mkFoodLocs currentCity orc i 0 chosenFoods
  { day := i + 1,
    date :=
      match dates.get? i with
      | some d => if d = "" then toString (i + 1) ++ "일차" else d
      | none => toString (i + 1) ++ "일차",
    city := currentCity.name,
    locations := orc.shuffleLocs i (spots ++ foods),
    distance := 0, duration := 0 }

/-- The `try` block of `parseTravel`: detection, day generation, and the
explicit `throw` when the generated day list is empty. -/
def parseTravelBody (cat : String → Option CatalogEntry) (orc : Oracle)
    (input : String) : Except String ParseResult :=
  let detected := detectedCitiesOf input
  let dates := effectiveDates input
  let itin := (List.range (maxDaysOf input)).map (buildDay cat orc detected dates)
  if itin.length = 0 then Except.error errEmptyItinerary
  else Except.ok { cities := detected, primaryCity := detected.getD 0 dummyCity,
                   itinerary := itin }

/-- The fixed fallback itinerary returned by the `catch` handler. -/
def fallbackResult : ParseResult :=
  { cities := [⟨"강릉", 37.7519, 128.8761⟩],
    primaryCity := ⟨"강릉", 37.7519, 128.8761⟩,
    itinerary :=
      [{ day := 1, date := "여행 1일차", city := "강릉",
         locations :=
           [⟨"경포해변", 37.7519, 128.8761, "09:00", "강릉", LocType.spot⟩,
            ⟨"오죽헌", 37.7519, 128.8761, "11:00", "강릉", LocType.spot⟩],
         distance := 0, duration := 0 }] }

/-- `parseTravel`: the `try` block guarded by the `catch` handler returning
the fixed fallback. -/
def parseTravel (cat : String → Option CatalogEntry) (orc : Oracle)
    (input : String) : ParseResult :=
  match parseTravelBody cat orc input with
  | Except.ok r => r
  | Except.error _ => fallbackResult

/-- Per-day route statistic delivered to the stats callback. -/
structure DayStat where
  distance : ℚ
  duration : ℚ
deriving DecidableEq

/-- A rendered marker, tagged with its `(dayIndex, locIndex)` pair. -/
structure Marker where
  dayIndex : Nat
  locIndex : Nat
  lat : ℚ
  lng : ℚ
deriving DecidableEq

/-- Observable actions of `addMarkersToMap`, in program order. -/
inductive MapEvent where
  | markerAdded (dayIndex locIndex : Nat)
  | routeRequested (dayIndex : Nat)
  | fitBounds (coords : List (ℚ × ℚ))
  | statsCallback (stats : List (Option DayStat))
deriving DecidableEq

/-- State of one `addMarkersToMap` invocation: the marker store, the sparse
`dayStats` array, the completion counter, and the emitted event trace. -/
structure AggState where
  markers : List Marker
  dayStats : List (Option DayStat)
  routingCount : Nat
  events : List MapEvent

/-- The empty starting state (`clearMap` has run). -/
def initAgg : AggState := ⟨[], [], 0, []⟩

/-- JavaScript array index assignment `a[i] = v` on a possibly-sparse array:
existing indices are overwritten, assignment past the end pads the holes. -/
def jsSet : List (Option DayStat) → Nat → DayStat → List (Option DayStat)
  | [], 0, v => [some v]
  | [], n + 1, v => none :: jsSet [] n v
  | _ :: t, 0, v => some v :: t
  | h :: t, n + 1, v => h :: jsSet t n v

/-- Record the outcome of day `i` (the shared tail of the `routesfound`
handler and of the unroutable branch): store the stat, bump the counter, and
when the counter reaches the day count invoke the stats callback once with
the current `dayStats` array. -/
def settleDay (n : Nat) (st : AggState) (i : Nat) (v : DayStat) : AggState :=
  let ds := jsSet st.dayStats i v
  let c := st.routingCount + 1
  { st with dayStats := ds, routingCount := c,
            events := st.events ++ (if c = n then [MapEvent.statsCallback ds] else []) }

/-- A day gets a route request iff the routing capability is present and it
has more than one location. -/
def isRoutable (ravail : Bool) (d : Day) : Bool :=
  ravail && decide (1 < d.locations.length)

/-- Marker-placement events for the locations of day `i`, with running
location index. -/
def markerEvs (i : Nat) : Nat → List Location → List MapEvent
  | _, [] => []
  | j, _ :: rest => MapEvent.markerAdded i j :: markerEvs i (j + 1) rest

/-- Marker records for the locations of day `i`. -/
def markerRecs (i : Nat) : Nat → List Location → List Marker
  | _, [] => []
  | j, l :: rest => ⟨i, j, l.lat, l.lng⟩ :: markerRecs i (j + 1) rest

/-- One iteration of the per-day loop: place the day's markers, then either
issue its route request or settle it immediately as unroutable. -/
def processDay (ravail : Bool) (n : Nat) (st : AggState) (i : Nat) (d : Day) : AggState :=
  let st1 := { st with markers := st.markers ++ markerRecs i 0 d.locations,
                       events := st.events ++ markerEvs i 0 d.locations }
  if isRoutable ravail d then
    { st1 with events := st1.events ++ [MapEvent.routeRequested i] }
  else
    settleDay n st1 i ⟨0, 0⟩

/-- The synchronous per-day loop (`itinerary.forEach`). -/
def syncDays (ravail : Bool) (n : Nat) : AggState → Nat → List Day → AggState
  | st, _, [] => st
  | st, i, d :: ds => syncDays ravail n (processDay ravail n st i d) (i + 1) ds

/-- All location coordinates of the itinerary, for viewport fitting. -/
def boundsOf (itin : List Day) : List (ℚ × ℚ) :=
  (itin.map (fun d => d.locations.map (fun l => (l.lat, l.lng)))).flatten

/-- The synchronous part of `addMarkersToMap` with the map available: the
per-day loop followed by bounds fitting (when any marker was placed). -/
def addMarkersSync (ravail : Bool) (itin : List Day) : AggState :=
  let st := syncDays ravail itin.length initAgg 0 itin
  let b := boundsOf itin
  { st with events := st.events ++ (if b.isEmpty then [] else [MapEvent.fitBounds b]) }

/-- JavaScript `Math.round`: round half toward positive infinity. -/
def jround (q : ℚ) : ℤ := ⌊q + 1 / 2⌋

/-- The stat computed by the `routesfound` handler from a route summary of
`m` total meters and `s` total seconds:
`distance = Math.round(m/100)/10` km, `duration = Math.round(s/60)` min. -/
def roundStat (m s : ℚ) : DayStat :=
  ⟨(jround (m / 100) : ℚ) / 10, (jround (s / 60) : ℚ)⟩

/-- An asynchronous `routesfound` completion for day `c.1` with summary
`(c.2.1 meters, c.2.2 seconds)`. -/
def routeFound (n : Nat) (st : AggState) (c : Nat × ℚ × ℚ) : AggState :=
  settleDay n st c.1 (roundStat c.2.1 c.2.2)

/-- `addMarkersToMap`, run to quiescence: if the map capability is missing
the function returns immediately (no markers, no routes, no callback);
otherwise the synchronous phase runs first and then the given asynchronous
route completions are processed in order. -/
def addMarkersToMap (mavail ravail : Bool) (itin : List Day)
    (completions : List (Nat × ℚ × ℚ)) : AggState :=
  if mavail then
    completions.foldl (routeFound itin.length) (addMarkersSync ravail itin)
  else initAgg

/-- The viewport/popup action performed by a successful highlight. -/
structure HighlightAction where
  lat : ℚ
  lng : ℚ
  zoom : Nat
  animate : Bool
deriving DecidableEq

/-- `highlightMarker(dayIndex, locIndex)`: guarded by the flat-array index
test `!markers[dayIndex * 10 + locIndex]`, then a scan for the marker tagged
with the exact pair; on success opens its popup and recenters at zoom 14. -/
def highlightMarker (markers : List Marker) (dayIndex locIndex : Nat) :
    Option HighlightAction :=
  match markers.get? (dayIndex * 10 + locIndex) with
  | none => none
  | some _ =>
      match markers.find? (fun m => m.dayIndex == dayIndex && m.locIndex == locIndex) with
      | some m => some ⟨m.lat, m.lng, 14, true⟩
      | none => none

/-- Indices of the days that get a route request, in day order. -/
def routables (ravail : Bool) : Nat → List Day → List Nat
  | _, [] => []
  | i, d :: ds => (if isRoutable ravail d then [i] else []) ++ routables ravail (i + 1) ds

/-- Indices of the days settled immediately as unroutable, in day order. -/
def unroutables (ravail : Bool) : Nat → List Day → List Nat
  | _, [] => []
  | i, d :: ds => (if isRoutable ravail d then [] else [i]) ++ unroutables ravail (i + 1) ds

/-- Recognizer for stats-callback events. -/
def isCb : MapEvent → Bool
  | MapEvent.statsCallback _ => true
  | _ => false

/-- Recognizer for marker-placement and route-request events. -/
def isMR : MapEvent → Bool
  | MapEvent.markerAdded _ _ => true
  | MapEvent.routeRequested _ => true
  | _ => false

/-- Recognizer for marker-placement and route-request events of day `t`. -/
def isDayMR (t : Nat) : MapEvent → Bool
  | MapEvent.markerAdded d _ => d == t
  | MapEvent.routeRequested d => d == t
  | _ => false

/-- The marker and route-request events of one day, in emission order. -/
def dayBlock (ravail : Bool) (t : Nat) (d : Day) : List MapEvent :=
  markerEvs t 0 d.locations ++
    (if isRoutable ravail d then [MapEvent.routeRequested t] else [])

/-- Length of the sparse `dayStats` array after the given settlements. -/
def maxLenOf (settled : List (Nat × DayStat)) : Nat :=
  settled.foldl (fun a p => max a (p.1 + 1)) 0

/-- Invariant of the aggregation state after the days in `settled` (each at
most once) have been recorded: the counter equals the number of settled
days, the sparse array has the settled stats at their day indices, and the
stats callback has fired iff the counter has reached `n`, carrying the
array as it stood at that moment. -/
def AggInv (n : Nat) (st : AggState) (settled : List (Nat × DayStat)) : Prop :=
  st.routingCount = settled.length ∧
  st.dayStats.length = maxLenOf settled ∧
  (∀ p ∈ settled, st.dayStats.get? p.1 = some (some p.2)) ∧
  st.events.filter isCb =
    (if n ≤ settled.length then [MapEvent.statsCallback st.dayStats] else [])

/-- A deterministic oracle: zero random draws, identity shuffles, centered
jitter. -/
def idOracle : Oracle where
  spotRand := fun _ => 0
  foodRand := fun _ => 0
  shuffleSpots := fun _ l => l
  shuffleFoods := fun _ l => l
  spotJitterLat := fun _ _ => 0.5
  spotJitterLng := fun _ _ => 0.5
  foodJitterLat := fun _ _ => 0.5
  foodJitterLng := fun _ _ => 0.5
  shuffleLocs := fun _ l => l

/-- A catalog with no entries at all. -/
def catEmpty : String → Option CatalogEntry := fun _ => none

/-- A small concrete catalog for witnesses. -/
def catSample : String → Option CatalogEntry := fun n =>
  if n = "강릉" then some ⟨["경포해변", "오죽헌", "안목해변"], ["초당순두부", "테라로사"]⟩
  else none

/-- A throwaway location used to build concrete itineraries for the map
layer (the map layer never inspects anything but coordinates and count). -/
def loc0 : Location := ⟨"A", 0, 0, "09:00", "강릉", LocType.spot⟩

/-- Concrete two-day itinerary with three locations per day. -/
def itinTwoByThree : List Day :=
  [⟨1, "7월 25일", "강릉", List.replicate 3 loc0, 0, 0⟩,
   ⟨2, "7월 26일", "속초", List.replicate 3 loc0, 0, 0⟩]

/-- Concrete second day with two locations, for trace-order witnesses. -/
def dayTwoLocB : Day := ⟨2, "7월 26일", "속초", List.replicate 2 loc0, 0, 0⟩

/-- Concrete two-day itinerary with two locations per day. -/
def itinTwoByTwo : List Day :=
  [⟨1, "7월 25일", "강릉", List.replicate 2 loc0, 0, 0⟩, dayTwoLocB]

/-- Concrete itinerary whose first day is unroutable (one location) and
whose second day is routable (two locations). -/
def itinMixed : List Day :=
  [⟨1, "7월 25일", "강릉", [loc0], 0, 0⟩, dayTwoLocB]

/-- The result assembled by the `try` block when the generated day list is
non-empty (which, as proved below, is always the case). -/
def normalResult (cat : String → Option CatalogEntry) (orc : Oracle)
    (input : String) : ParseResult :=
  { cities := detectedCitiesOf input,
    primaryCity := (detectedCitiesOf input).getD 0 dummyCity,
    itinerary := (List.range (maxDaysOf input)).map
      (buildDay cat orc (detectedCitiesOf input) (effectiveDates input)) }

lemma effectiveDates_two_le (input : String) : 2 ≤ (effectiveDates input).length := by
  simp only [effectiveDates]
  split
  · decide
  · omega

lemma detectedCitiesOf_ne_nil (input : String) : detectedCitiesOf input ≠ [] := by
  simp only [detectedCitiesOf]
  split
  · simp
  · next h => exact fun hnil => h (by rw [hnil]; rfl)

lemma maxDaysOf_pos (input : String) : 0 < maxDaysOf input := by
  have h1 := effectiveDates_two_le input
  simp only [maxDaysOf]
  split <;> omega

lemma parseTravelBody_ok (cat : String → Option CatalogEntry) (orc : Oracle)
    (input : String) :
    parseTravelBody cat orc input = Except.ok (normalResult cat orc input) := by
  have h := maxDaysOf_pos input
  simp only [parseTravelBody, normalResult]
  rw [if_neg]
  simp only [List.length_map, List.length_range]
  omega

lemma parseTravel_eq_normal (cat : String → Option CatalogEntry) (orc : Oracle)
    (input : String) :
    parseTravel cat orc input = normalResult cat orc input := by
  simp [parseTravel, parseTravelBody_ok]

lemma parseTravel_itinerary_length (cat : String → Option CatalogEntry)
    (orc : Oracle) (input : String) :
    (parseTravel cat orc input).itinerary.length = maxDaysOf input := by
  rw [parseTravel_eq_normal]
  simp [normalResult]

lemma parseTravel_itinerary_get? (cat : String → Option CatalogEntry)
    (orc : Oracle) (input : String) (i : Nat) (h : i < maxDaysOf input) :
    (parseTravel cat orc input).itinerary.get? i =
      some (buildDay cat orc (detectedCitiesOf input) (effectiveDates input) i) := by
  rw [parseTravel_eq_normal]
  simp only [normalResult]
  rw [List.get?_eq_getElem?, List.getElem?_map, List.getElem?_range h]
  rfl

lemma lt_of_itinerary_get? (cat : String → Option CatalogEntry)
    (orc : Oracle) (input : String) (i : Nat) (day : Day)
    (h : (parseTravel cat orc input).itinerary.get? i = some day) :
    i < maxDaysOf input ∧
      day = buildDay cat orc (detectedCitiesOf input) (effectiveDates input) i := by
  have hlt : i < (parseTravel cat orc input).itinerary.length := by
    by_contra hle
    rw [List.get?_eq_none.mpr (by omega)] at h
    exact Option.noConfusion h
  rw [parseTravel_itinerary_length] at hlt
  refine ⟨hlt, ?_⟩
  rw [parseTravel_itinerary_get? cat orc input i hlt] at h
  exact (Option.some.inj h).symm

lemma buildDay_day (cat : String → Option CatalogEntry) (orc : Oracle)
    (det : List City) (dates : List String) (i : Nat) :
    (buildDay cat orc det dates i).day = i + 1 := rfl

lemma buildDay_city (cat : String → Option CatalogEntry) (orc : Oracle)
    (det : List City) (dates : List String) (i : Nat) :
    (buildDay cat orc det dates i).city = (det.getD (i % det.length) dummyCity).name := rfl

lemma buildDay_date (cat : String → Option CatalogEntry) (orc : Oracle)
    (det : List City) (dates : List String) (i : Nat) (d : String)
    (hget : dates.get? i = some d) (hne : d ≠ "") :
    (buildDay cat orc det dates i).date = d := by
  rw [List.get?_eq_getElem?] at hget
  simp [buildDay, hget, hne]

lemma scanAux_mem_ne_empty : ∀ (fuel : Nat) (s : List Char),
    ∀ d ∈ scanAux fuel s, d ≠ "" := by
  intro fuel
  induction fuel with
  | zero => intro s d hd; simp [scanAux] at hd
  | succ n ih =>
    intro s d hd
    match s with
    | [] => simp [scanAux] at hd
    | c :: rest =>
      rw [scanAux] at hd
      revert hd
      cases hm : matchDateAt (c :: rest) with
      | none => exact fun hd => ih rest d hd
      | some k =>
        intro hd
        rcases List.mem_cons.mp hd with h1 | h2
        · subst h1
          intro habs
          have hdata : (c :: rest).take (max k 1) = [] := congrArg String.data habs
          rw [show max k 1 = (max k 1 - 1) + 1 from by omega] at hdata
          simp [List.take_succ_cons] at hdata
        · exact ih _ d h2

lemma effectiveDates_mem_ne_empty (input : String) :
    ∀ d ∈ effectiveDates input, d ≠ "" := by
  intro d hd
  simp only [effectiveDates] at hd
  revert hd
  split
  · intro hd
    fin_cases hd <;> decide
  · exact scanAux_mem_ne_empty _ _ d

lemma buildDay_date_of_lt (cat : String → Option CatalogEntry) (orc : Oracle)
    (det : List City) (input : String) (i : Nat)
    (h : i < (effectiveDates input).length) :
    (effectiveDates input).get? i =
      some (buildDay cat orc det (effectiveDates input) i).date := by
  cases hget : (effectiveDates input).get? i with
  | none =>
    rw [List.get?_eq_none] at hget
    omega
  | some d =>
    have hmem : d ∈ effectiveDates input := List.get?_mem hget
    rw [buildDay_date cat orc det _ i d hget (effectiveDates_mem_ne_empty input d hmem)]

/-- C10: every day of a successfully synthesized (non-fallback) itinerary
takes its date from the date list actually in effect: day `i`'s date is
`dates[i]`, and the substitute day label is never needed because the day
count never exceeds the effective date list's length. -/
theorem parseTravel_dates_from_effective (cat : String → Option CatalogEntry)
    (orc : Oracle) (input : String) (r : ParseResult)
    (h : parseTravelBody cat orc input = Except.ok r) :
    r.itinerary.length ≤ (effectiveDates input).length ∧
    ∀ i day, r.itinerary.get? i = some day →
      (effectiveDates input).get? i = some day.date := by
  rw [parseTravelBody_ok] at h
  have hr : r = normalResult cat orc input := (Except.ok.inj h).symm
  subst hr
  have hlen : (normalResult cat orc input).itinerary.length = maxDaysOf input := by
    simp [normalResult]
  constructor
  · rw [hlen]
    exact Nat.min_le_left _ _
  · intro i day hget
    rw [← parseTravel_eq_normal] at hget
    obtain ⟨hi, hday⟩ := lt_of_itinerary_get? cat orc input i day hget
    have hi2 : i < (effectiveDates input).length :=
      lt_of_lt_of_le hi (Nat.min_le_left _ _)
    rw [hday]
    exact buildDay_date_of_lt cat orc _ input i hi2

/-- C10 witness: concrete successful synthesis on the empty input. -/
theorem parseTravel_dates_from_effective_witness :
    parseTravelBody catSample idOracle inputNone = Except.ok (parseTravel catSample idOracle inputNone) ∧
    ((parseTravel catSample idOracle inputNone).itinerary.length ≤ (effectiveDates inputNone).length ∧
     ∀ i day, (parseTravel catSample idOracle inputNone).itinerary.get? i = some day →
       (effectiveDates inputNone).get? i = some day.date) :=
  ⟨rfl, parseTravel_dates_from_effective catSample idOracle inputNone _ rfl⟩

lemma detectedCitiesOf_default (input : String)
    (hc : ∀ c ∈ citiesM, strIncludes input c.name = false) :
    detectedCitiesOf input = [citiesM.getD 3 dummyCity] := by
  simp only [detectedCitiesOf]
  rw [if_pos]
  rw [List.length_eq_zero]
  rw [List.filter_eq_nil_iff]
  intro a ha
  simp [hc a ha]

lemma detectedCitiesOf_filter (input : String)
    (hc : citiesM.filter (fun c => strIncludes input c.name) ≠ []) :
    detectedCitiesOf input = citiesM.filter (fun c => strIncludes input c.name) := by
  simp only [detectedCitiesOf]
  rw [if_neg]
  intro h
  exact hc (List.length_eq_zero.mp h)

lemma effectiveDates_default (input : String)
    (hd : (scanDates input).length < 2) :
    effectiveDates input = defaultDates := by
  simp only [effectiveDates]
  rw [if_pos hd]

lemma effectiveDates_scan (input : String)
    (hd : 2 ≤ (scanDates input).length) :
    effectiveDates input = scanDates input := by
  simp only [effectiveDates]
  rw [if_neg (by omega)]

/-- C4: for an input with no cataloged city name and no recognizable date
token, the synthesizer falls back to the default city and the default date
list; contrary to the spec's example the itinerary then has three days, not
one (the day cap is `min(5, 3) = 3`), each with city 강릉 and with the first
three default dates in order. -/
theorem parseTravel_no_tokens (cat : String → Option CatalogEntry) (orc : Oracle)
    (input : String)
    (hc : ∀ c ∈ citiesM, strIncludes input c.name = false)
    (hd : scanDates input = []) :
    (parseTravel cat orc input).itinerary.length = 3 ∧
    (∀ day ∈ (parseTravel cat orc input).itinerary, day.city = "강릉") ∧
    ((parseTravel cat orc input).itinerary.get? 0).map Day.date = some defaultDate1 ∧
    ((parseTravel cat orc input).itinerary.get? 1).map Day.date = some defaultDate2 ∧
    ((parseTravel cat orc input).itinerary.get? 2).map Day.date = some defaultDate3 := by
  have hdet := detectedCitiesOf_default input hc
  have hdat := effectiveDates_default input (by rw [hd]; decide)
  have hmax : maxDaysOf input = 3 := by
    simp [maxDaysOf, hdet, hdat, defaultDates]
  refine ⟨?_, ?_, ?_, ?_, ?_⟩
  · rw [parseTravel_itinerary_length, hmax]
  · intro day hday
    rw [parseTravel_eq_normal] at hday
    simp only [normalResult, List.mem_map] at hday
    obtain ⟨i, _, hbd⟩ := hday
    rw [← hbd, buildDay_city, hdet]
    simp only [List.length_singleton, Nat.mod_one, List.getD_cons_zero]
    rfl
  · rw [parseTravel_itinerary_get? cat orc input 0 (by omega)]
    rw [Option.map_some']
    rw [buildDay_date cat orc _ _ 0 defaultDate1 (by rw [hdat]; rfl) (by decide)]
  · rw [parseTravel_itinerary_get? cat orc input 1 (by omega)]
    rw [Option.map_some']
    rw [buildDay_date cat orc _ _ 1 defaultDate2 (by rw [hdat]; rfl) (by decide)]
  · rw [parseTravel_itinerary_get? cat orc input 2 (by omega)]
    rw [Option.map_some']
    rw [buildDay_date cat orc _ _ 2 defaultDate3 (by rw [hdat]; rfl) (by decide)]

/-- C4 counterexample: on the empty input (no city token, no date token) the
itinerary has three days, not one as the spec's example claims. -/
theorem parseTravel_empty_input_three_days :
    (parseTravel catSample idOracle inputNone).itinerary.length = 3 ∧
    (parseTravel catSample idOracle inputNone).itinerary.length ≠ 1 := by
  constructor
  · decide
  · decide

/-- C4 witness: the empty input satisfies the hypotheses concretely. -/
theorem parseTravel_no_tokens_witness :
    ((∀ c ∈ citiesM, strIncludes inputNone c.name = false) ∧ scanDates inputNone = []) ∧
    ((parseTravel catSample idOracle inputNone).itinerary.length = 3 ∧
     (∀ day ∈ (parseTravel catSample idOracle inputNone).itinerary, day.city = "강릉") ∧
     ((parseTravel catSample idOracle inputNone).itinerary.get? 0).map Day.date = some defaultDate1 ∧
     ((parseTravel catSample idOracle inputNone).itinerary.get? 1).map Day.date = some defaultDate2 ∧
     ((parseTravel catSample idOracle inputNone).itinerary.get? 2).map Day.date = some defaultDate3) :=
  ⟨⟨by decide, by decide⟩,
   parseTravel_no_tokens catSample idOracle inputNone (by decide) (by decide)⟩

/-- C5: with at least one cataloged city name and at least two recognizable
date tokens in the input, the day count is
`min(dateCount, detectedCities > 1 ? 5 : 3)` and day `i`'s city is chosen
round-robin from the detected cities in catalog order. -/
theorem parseTravel_city_date_counts (cat : String → Option CatalogEntry)
    (orc : Oracle) (input : String)
    (hc : citiesM.filter (fun c => strIncludes input c.name) ≠ [])
    (hd : 2 ≤ (scanDates input).length) :
    (parseTravel cat orc input).itinerary.length =
      min (scanDates input).length
        (if 1 < (citiesM.filter (fun c => strIncludes input c.name)).length then 5 else 3) ∧
    ∀ i day, (parseTravel cat orc input).itinerary.get? i = some day →
      day.city = ((citiesM.filter (fun c => strIncludes input c.name)).getD
        (i % (citiesM.filter (fun c => strIncludes input c.name)).length) dummyCity).name := by
  have hdet := detectedCitiesOf_filter input hc
  have hdat := effectiveDates_scan input hd
  constructor
  · rw [parseTravel_itinerary_length]
    simp [maxDaysOf, hdet, hdat]
  · intro i day hget
    obtain ⟨_, hday⟩ := lt_of_itinerary_get? cat orc input i day hget
    rw [hday, buildDay_city, hdet]

/-- C5 witness: a concrete input with two cataloged cities and three date
tokens. -/
theorem parseTravel_city_date_counts_witness :
    ((citiesM.filter (fun c => strIncludes inputMulti c.name) ≠ []) ∧
     2 ≤ (scanDates inputMulti).length) ∧
    ((parseTravel catSample idOracle inputMulti).itinerary.length =
      min (scanDates inputMulti).length
        (if 1 < (citiesM.filter
            (fun c => strIncludes inputMulti c.name)).length
         then 5 else 3) ∧
     ∀ i day,
       (parseTravel catSample idOracle
          inputMulti).itinerary.get? i = some day →
       day.city = ((citiesM.filter
            (fun c => strIncludes inputMulti c.name)).getD
          (i % (citiesM.filter
            (fun c => strIncludes inputMulti c.name)).length)
          dummyCity).name) :=
  ⟨⟨by decide, by decide⟩,
   parseTravel_city_date_counts catSample idOracle _ (by decide) (by decide)⟩

lemma mkSpotLocs_length (c : City) (orc : Oracle) (i : Nat) :
    ∀ (j : Nat) (l : List String), (mkSpotLocs c orc i j l).length = l.length := by
  intro j l
  induction l generalizing j with
  | nil => rfl
  | cons x xs ih => simp [mkSpotLocs, ih]

lemma mkFoodLocs_length (c : City) (orc : Oracle) (i : Nat) :
    ∀ (j : Nat) (l : List String), (mkFoodLocs c orc i j l).length = l.length := by
  intro j l
  induction l generalizing j with
  | nil => rfl
  | cons x xs ih => simp [mkFoodLocs, ih]

lemma mkSpotLocs_map_name (c : City) (orc : Oracle) (i : Nat) :
    ∀ (j : Nat) (l : List String), (mkSpotLocs c orc i j l).map Location.name = l := by
  intro j l
  induction l generalizing j with
  | nil => rfl
  | cons x xs ih => simp [mkSpotLocs, ih]

lemma mkFoodLocs_map_name (c : City) (orc : Oracle) (i : Nat) :
    ∀ (j : Nat) (l : List String), (mkFoodLocs c orc i j l).map Location.name = l := by
  intro j l
  induction l generalizing j with
  | nil => rfl
  | cons x xs ih => simp [mkFoodLocs, ih]

lemma mkSpotLocs_type (c : City) (orc : Oracle) (i : Nat) :
    ∀ (j : Nat) (l : List String) (x : Location),
      x ∈ mkSpotLocs c orc i j l → x.type = LocType.spot := by
  intro j l
  induction l generalizing j with
  | nil => intro x hx; simp [mkSpotLocs] at hx
  | cons y ys ih =>
    intro x hx
    rcases List.mem_cons.mp hx with h1 | h2
    · rw [h1]
    · exact ih (j + 1) x h2

lemma mkFoodLocs_type (c : City) (orc : Oracle) (i : Nat) :
    ∀ (j : Nat) (l : List String) (x : Location),
      x ∈ mkFoodLocs c orc i j l → x.type = LocType.food := by
  intro j l
  induction l generalizing j with
  | nil => intro x hx; simp [mkFoodLocs] at hx
  | cons y ys ih =>
    intro x hx
    rcases List.mem_cons.mp hx with h1 | h2
    · rw [h1]
    · exact ih (j + 1) x h2

lemma buildDay_locations (cat : String → Option CatalogEntry) (orc : Oracle)
    (det : List City) (dates : List String) (i : Nat) :
    (buildDay cat orc det dates i).locations =
      orc.shuffleLocs i
        (mkSpotLocs (det.getD (i % det.length) dummyCity) orc i 0
            (getRandomItems (orc.shuffleSpots i)
              ((cat (det.getD (i % det.length) dummyCity).name).getD ⟨[], []⟩).spots
              (min ((cat (det.getD (i % det.length) dummyCity).name).getD ⟨[], []⟩).spots.length
                (2 + (⌊orc.spotRand i * 2⌋).toNat))) ++
         mkFoodLocs (det.getD (i % det.length) dummyCity) orc i 0
            (getRandomItems (orc.shuffleFoods i)
              ((cat (det.getD (i % det.length) dummyCity).name).getD ⟨[], []⟩).foods
              (min ((cat (det.getD (i % det.length) dummyCity).name).getD ⟨[], []⟩).foods.length
                (1 + (⌊orc.foodRand i * 2⌋).toNat)))) := rfl

lemma detectedCitiesOf_getD_mem (input : String) (i : Nat) :
    (detectedCitiesOf input).getD (i % (detectedCitiesOf input).length) dummyCity ∈
      detectedCitiesOf input := by
  have hne := detectedCitiesOf_ne_nil input
  have hpos : 0 < (detectedCitiesOf input).length := List.length_pos.mpr hne
  have hlt : i % (detectedCitiesOf input).length < (detectedCitiesOf input).length :=
    Nat.mod_lt _ hpos
  rw [List.getD_eq_getElem _ _ hlt]
  exact List.getElem_mem hlt

/-- C7: the synthesizer is total and its `catch` handler returns one fixed
fallback: every run either yields the successful synthesis result or the
constant `fallbackResult`, which has exactly one day, city 강릉, the two
hardcoded spot locations, and zero distance and duration. -/
theorem parseTravel_total_fixed_fallback :
    (∀ (cat : String → Option CatalogEntry) (orc : Oracle) (input : String),
      parseTravel cat orc input = fallbackResult ∨
      parseTravelBody cat orc input = Except.ok (parseTravel cat orc input)) ∧
    fallbackResult.itinerary.map Day.day = [1] ∧
    fallbackResult.itinerary.map Day.city = ["강릉"] ∧
    fallbackResult.itinerary.map (fun d => d.locations.map Location.name) =
      [["경포해변", "오죽헌"]] ∧
    fallbackResult.itinerary.map (fun d => d.locations.map Location.type) =
      [[LocType.spot, LocType.spot]] ∧
    fallbackResult.itinerary.map Day.distance = [0] ∧
    fallbackResult.itinerary.map Day.duration = [0] := by
  refine ⟨?_, by decide, by decide, by decide, by decide, by decide, by decide⟩
  intro cat orc input
  right
  rw [parseTravelBody_ok, parseTravel_eq_normal]

/-- C7 witness: the totality disjunction at a concrete run. -/
theorem parseTravel_total_fixed_fallback_witness :
    parseTravel catSample idOracle inputNone = fallbackResult ∨
    parseTravelBody catSample idOracle inputNone =
      Except.ok (parseTravel catSample idOracle inputNone) :=
  parseTravel_total_fixed_fallback.1 catSample idOracle inputNone

lemma buildDay_locations_ne_nil (cat : String → Option CatalogEntry) (orc : Oracle)
    (det : List City) (dates : List String) (i : Nat)
    (hss : ∀ (k : Nat) (l : List String), (orc.shuffleSpots k l).Perm l)
    (hsf : ∀ (k : Nat) (l : List String), (orc.shuffleFoods k l).Perm l)
    (hsl : ∀ (k : Nat) (l : List Location), (orc.shuffleLocs k l).Perm l)
    (hcat : ((cat (det.getD (i % det.length) dummyCity).name).getD ⟨[], []⟩).spots ≠ [] ∨
      ((cat (det.getD (i % det.length) dummyCity).name).getD ⟨[], []⟩).foods ≠ []) :
    (buildDay cat orc det dates i).locations ≠ [] := by
  rw [← List.length_pos, buildDay_locations]
  rw [(hsl i _).length_eq, List.length_append, mkSpotLocs_length, mkFoodLocs_length]
  simp only [getRandomItems, List.length_take]
  rw [(hss i _).length_eq, (hsf i _).length_eq]
  rcases hcat with h | h
  · have hlen : ((cat (det.getD (i % det.length) dummyCity).name).getD
        ⟨[], []⟩).spots.length ≠ 0 := by
      intro habs
      exact h (List.length_eq_zero.mp habs)
    omega
  · have hlen : ((cat (det.getD (i % det.length) dummyCity).name).getD
        ⟨[], []⟩).foods.length ≠ 0 := by
      intro habs
      exact h (List.length_eq_zero.mp habs)
    omega

/-- C6 (amended): every itinerary produced by `parseTravel` has at least one
day and contiguous day numbers starting at 1, for every catalog; and each
individual day whose own city has a catalog entry with at least one spot or
at least one food has at least one location — also in mixed runs where other
cities' entries are absent.  (A day whose city has no catalog entry, or an
empty one, gets an empty location list, contrary to the original claim.) -/
theorem parseTravel_invariants (cat : String → Option CatalogEntry) (orc : Oracle)
    (input : String)
    (hss : ∀ (k : Nat) (l : List String), (orc.shuffleSpots k l).Perm l)
    (hsf : ∀ (k : Nat) (l : List String), (orc.shuffleFoods k l).Perm l)
    (hsl : ∀ (k : Nat) (l : List Location), (orc.shuffleLocs k l).Perm l) :
    (parseTravel cat orc input).itinerary ≠ [] ∧
    ∀ i day, (parseTravel cat orc input).itinerary.get? i = some day →
      day.day = i + 1 ∧
      ((((cat day.city).getD ⟨[], []⟩).spots ≠ [] ∨
        ((cat day.city).getD ⟨[], []⟩).foods ≠ []) →
       day.locations ≠ []) := by
  constructor
  · intro habs
    have h1 := parseTravel_itinerary_length cat orc input
    rw [habs] at h1
    have h2 := maxDaysOf_pos input
    simp at h1
    omega
  · intro i day hget
    obtain ⟨_, hday⟩ := lt_of_itinerary_get? cat orc input i day hget
    have hcity : day.city = ((detectedCitiesOf input).getD
        (i % (detectedCitiesOf input).length) dummyCity).name := by
      rw [hday, buildDay_city]
    refine ⟨by rw [hday]; exact buildDay_day cat orc _ _ i, ?_⟩
    intro hcat
    rw [hcity] at hcat
    rw [hday]
    exact buildDay_locations_ne_nil cat orc _ _ i hss hsf hsl hcat

/-- C6 counterexample: with a city absent from the catalog (spots and foods
treated as empty), the generated day has zero locations, violating the
claimed at-least-one-location invariant. -/
theorem parseTravel_absent_catalog_empty_day :
    ((parseTravel catEmpty idOracle inputNone).itinerary.get? 0).map
      (fun d => d.locations.length) = some 0 := by
  rw [parseTravel_itinerary_get? catEmpty idOracle inputNone 0 (by decide)]
  rw [Option.map_some']
  rw [buildDay_locations]
  simp [catEmpty, getRandomItems, idOracle, mkSpotLocs, mkFoodLocs]

/-- C6 witness: concrete run with the identity oracle; the detected city's
catalog entry is non-empty, so the per-day conditional applies. -/
theorem parseTravel_invariants_witness :
    (parseTravel catSample idOracle inputNone).itinerary ≠ [] ∧
    ∀ i day, (parseTravel catSample idOracle inputNone).itinerary.get? i = some day →
      day.day = i + 1 ∧
      ((((catSample day.city).getD ⟨[], []⟩).spots ≠ [] ∨
        ((catSample day.city).getD ⟨[], []⟩).foods ≠ []) →
       day.locations ≠ []) :=
  parseTravel_invariants catSample idOracle inputNone
    (fun _ l => List.Perm.refl l) (fun _ l => List.Perm.refl l)
    (fun _ l => List.Perm.refl l)

lemma floor_two_mul_toNat_le (r : ℚ) (_h0 : 0 ≤ r) (h1 : r < 1) :
    (⌊r * 2⌋).toNat ≤ 1 := by
  have h2 : r * 2 < 2 := by nlinarith
  have h3 : ⌊r * 2⌋ < (2 : ℤ) := Int.floor_lt.mpr (by exact_mod_cast h2)
  omega

lemma getRandomItems_length (shuffle : List String → List String)
    (hs : ∀ l, (shuffle l).Perm l) (arr : List String) (count : Nat)
    (hc : count ≤ arr.length) :
    (getRandomItems shuffle arr count).length = count := by
  simp only [getRandomItems, List.length_take, (hs arr).length_eq]
  omega

lemma getRandomItems_nodup (shuffle : List String → List String)
    (hs : ∀ l, (shuffle l).Perm l) (arr : List String) (count : Nat)
    (hnd : arr.Nodup) : (getRandomItems shuffle arr count).Nodup :=
  List.Nodup.sublist (List.take_sublist _ _) (((hs arr).nodup_iff).mpr hnd)

lemma filter_mixed_locs (c : City) (orc : Oracle) (i : Nat)
    (sNames fNames : List String) (loc : List Location)
    (hp : loc.Perm (mkSpotLocs c orc i 0 sNames ++ mkFoodLocs c orc i 0 fNames)) :
    (loc.filter (fun l => l.type == LocType.spot)).Perm (mkSpotLocs c orc i 0 sNames) ∧
    (loc.filter (fun l => l.type == LocType.food)).Perm (mkFoodLocs c orc i 0 fNames) := by
  have h1 : (mkSpotLocs c orc i 0 sNames).filter (fun l => l.type == LocType.spot) =
      mkSpotLocs c orc i 0 sNames :=
    List.filter_eq_self.mpr (fun x hx => by simp [mkSpotLocs_type c orc i 0 sNames x hx])
  have h2 : (mkFoodLocs c orc i 0 fNames).filter (fun l => l.type == LocType.spot) = [] :=
    List.filter_eq_nil_iff.mpr (fun x hx => by simp [mkFoodLocs_type c orc i 0 fNames x hx])
  have h3 : (mkSpotLocs c orc i 0 sNames).filter (fun l => l.type == LocType.food) = [] :=
    List.filter_eq_nil_iff.mpr (fun x hx => by simp [mkSpotLocs_type c orc i 0 sNames x hx])
  have h4 : (mkFoodLocs c orc i 0 fNames).filter (fun l => l.type == LocType.food) =
      mkFoodLocs c orc i 0 fNames :=
    List.filter_eq_self.mpr (fun x hx => by simp [mkFoodLocs_type c orc i 0 fNames x hx])
  constructor
  · have h := hp.filter (fun l => l.type == LocType.spot)
    rw [List.filter_append, h1, h2, List.append_nil] at h
    exact h
  · have h := hp.filter (fun l => l.type == LocType.food)
    rw [List.filter_append, h3, h4, List.nil_append] at h
    exact h

/-- C8: per-day POI selection sizes and distinctness: every generated day
has between `min(|spots|, 2)` and `min(|spots|, 3)` spot locations and
between `min(|foods|, 1)` and `min(|foods|, 2)` food locations drawn from
its city's catalog entry, with pairwise-distinct names within each kind. -/
theorem parseTravel_selection_bounds (cat : String → Option CatalogEntry)
    (orc : Oracle) (input : String)
    (hss : ∀ (k : Nat) (l : List String), (orc.shuffleSpots k l).Perm l)
    (hsf : ∀ (k : Nat) (l : List String), (orc.shuffleFoods k l).Perm l)
    (hsl : ∀ (k : Nat) (l : List Location), (orc.shuffleLocs k l).Perm l)
    (hr1 : ∀ k : Nat, 0 ≤ orc.spotRand k ∧ orc.spotRand k < 1)
    (hr2 : ∀ k : Nat, 0 ≤ orc.foodRand k ∧ orc.foodRand k < 1)
    (hnd : ∀ c ∈ detectedCitiesOf input,
      ((cat c.name).getD ⟨[], []⟩).spots.Nodup ∧ ((cat c.name).getD ⟨[], []⟩).foods.Nodup) :
    ∀ i day, (parseTravel cat orc input).itinerary.get? i = some day →
      min ((cat day.city).getD ⟨[], []⟩).spots.length 2 ≤
          (day.locations.filter (fun l => l.type == LocType.spot)).length ∧
      (day.locations.filter (fun l => l.type == LocType.spot)).length ≤
          min ((cat day.city).getD ⟨[], []⟩).spots.length 3 ∧
      min ((cat day.city).getD ⟨[], []⟩).foods.length 1 ≤
          (day.locations.filter (fun l => l.type == LocType.food)).length ∧
      (day.locations.filter (fun l => l.type == LocType.food)).length ≤
          min ((cat day.city).getD ⟨[], []⟩).foods.length 2 ∧
      ((day.locations.filter (fun l => l.type == LocType.spot)).map Location.name).Nodup ∧
      ((day.locations.filter (fun l => l.type == LocType.food)).map Location.name).Nodup := by
  intro i day hget
  obtain ⟨_, hday⟩ := lt_of_itinerary_get? cat orc input i day hget
  have hmem := detectedCitiesOf_getD_mem input i
  obtain ⟨hnds, hndf⟩ := hnd _ hmem
  have hcity : day.city =
      ((detectedCitiesOf input).getD (i % (detectedCitiesOf input).length) dummyCity).name := by
    rw [hday, buildDay_city]
  have he1 := floor_two_mul_toNat_le _ (hr1 i).1 (hr1 i).2
  have he2 := floor_two_mul_toNat_le _ (hr2 i).1 (hr2 i).2
  have hperm : day.locations.Perm
      (mkSpotLocs ((detectedCitiesOf input).getD (i % (detectedCitiesOf input).length)
          dummyCity) orc i 0
          (getRandomItems (orc.shuffleSpots i)
            ((cat day.city).getD ⟨[], []⟩).spots
            (min ((cat day.city).getD ⟨[], []⟩).spots.length
              (2 + (⌊orc.spotRand i * 2⌋).toNat))) ++
       mkFoodLocs ((detectedCitiesOf input).getD (i % (detectedCitiesOf input).length)
          dummyCity) orc i 0
          (getRandomItems (orc.shuffleFoods i)
            ((cat day.city).getD ⟨[], []⟩).foods
            (min ((cat day.city).getD ⟨[], []⟩).foods.length
              (1 + (⌊orc.foodRand i * 2⌋).toNat)))) := by
    rw [hcity, hday, buildDay_locations]
    exact hsl i _
  obtain ⟨hfs, hff⟩ := filter_mixed_locs _ orc i _ _ _ hperm
  have hlenS : (day.locations.filter (fun l => l.type == LocType.spot)).length =
      min ((cat day.city).getD ⟨[], []⟩).spots.length
        (2 + (⌊orc.spotRand i * 2⌋).toNat) := by
    rw [hfs.length_eq, mkSpotLocs_length]
    exact getRandomItems_length _ (hss i) _ _ (Nat.min_le_left _ _)
  have hlenF : (day.locations.filter (fun l => l.type == LocType.food)).length =
      min ((cat day.city).getD ⟨[], []⟩).foods.length
        (1 + (⌊orc.foodRand i * 2⌋).toNat) := by
    rw [hff.length_eq, mkFoodLocs_length]
    exact getRandomItems_length _ (hsf i) _ _ (Nat.min_le_left _ _)
  refine ⟨by omega, by omega, by omega, by omega, ?_, ?_⟩
  · rw [List.Perm.nodup_iff (List.Perm.map Location.name hfs), mkSpotLocs_map_name]
    rw [← hcity] at hnds
    exact getRandomItems_nodup _ (hss i) _ _ hnds
  · rw [List.Perm.nodup_iff (List.Perm.map Location.name hff), mkFoodLocs_map_name]
    rw [← hcity] at hndf
    exact getRandomItems_nodup _ (hsf i) _ _ hndf

/-- C8 witness: concrete run with the identity oracle and a duplicate-free
catalog. -/
theorem parseTravel_selection_bounds_witness :
    (∀ c ∈ detectedCitiesOf inputNone,
      ((catSample c.name).getD ⟨[], []⟩).spots.Nodup ∧
      ((catSample c.name).getD ⟨[], []⟩).foods.Nodup) ∧
    (∀ i day, (parseTravel catSample idOracle inputNone).itinerary.get? i = some day →
      min ((catSample day.city).getD ⟨[], []⟩).spots.length 2 ≤
          (day.locations.filter (fun l => l.type == LocType.spot)).length ∧
      (day.locations.filter (fun l => l.type == LocType.spot)).length ≤
          min ((catSample day.city).getD ⟨[], []⟩).spots.length 3 ∧
      min ((catSample day.city).getD ⟨[], []⟩).foods.length 1 ≤
          (day.locations.filter (fun l => l.type == LocType.food)).length ∧
      (day.locations.filter (fun l => l.type == LocType.food)).length ≤
          min ((catSample day.city).getD ⟨[], []⟩).foods.length 2 ∧
      ((day.locations.filter (fun l => l.type == LocType.spot)).map Location.name).Nodup ∧
      ((day.locations.filter (fun l => l.type == LocType.food)).map Location.name).Nodup) :=
  ⟨by decide,
   parseTravel_selection_bounds catSample idOracle inputNone
     (fun _ l => List.Perm.refl l) (fun _ l => List.Perm.refl l)
     (fun _ l => List.Perm.refl l)
     (fun _ => ⟨by norm_num [idOracle], by norm_num [idOracle]⟩)
     (fun _ => ⟨by norm_num [idOracle], by norm_num [idOracle]⟩)
     (by decide)⟩

lemma jsSet_length (v : DayStat) :
    ∀ (a : List (Option DayStat)) (i : Nat), (jsSet a i v).length = max a.length (i + 1) := by
  intro a
  induction a with
  | nil =>
    intro i
    induction i with
    | zero => rfl
    | succ n ih => simp only [jsSet, List.length_cons, List.length_nil, ih]; omega
  | cons h t iht =>
    intro i
    cases i with
    | zero => simp [jsSet]
    | succ n => simp only [jsSet, List.length_cons, iht]; omega

lemma jsSet_get?_self (v : DayStat) :
    ∀ (a : List (Option DayStat)) (i : Nat), (jsSet a i v).get? i = some (some v) := by
  intro a
  induction a with
  | nil =>
    intro i
    induction i with
    | zero => rfl
    | succ n ih => simpa [jsSet] using ih
  | cons h t iht =>
    intro i
    cases i with
    | zero => rfl
    | succ n => simpa [jsSet] using iht n

lemma jsSet_get?_other (v : DayStat) :
    ∀ (a : List (Option DayStat)) (i j : Nat), j ≠ i →
      ∀ w, a.get? j = some w → (jsSet a i v).get? j = some w := by
  intro a
  induction a with
  | nil => intro i j _ w hw; simp at hw
  | cons h t iht =>
    intro i j hne w hw
    cases i with
    | zero =>
      cases j with
      | zero => exact absurd rfl hne
      | succ m => simpa [jsSet] using hw
    | succ n =>
      cases j with
      | zero => simpa [jsSet] using hw
      | succ m =>
        have hne' : m ≠ n := fun h => hne (by rw [h])
        simp only [jsSet, List.get?_cons_succ] at hw ⊢
        exact iht n m hne' w hw

lemma maxLenOf_append_single (s : List (Nat × DayStat)) (i : Nat) (v : DayStat) :
    maxLenOf (s ++ [(i, v)]) = max (maxLenOf s) (i + 1) := by
  simp [maxLenOf, List.foldl_append]

lemma markerEvs_filter_isCb (i : Nat) :
    ∀ (j : Nat) (locs : List Location), (markerEvs i j locs).filter isCb = [] := by
  intro j locs
  induction locs generalizing j with
  | nil => rfl
  | cons x xs ih => simp [markerEvs, isCb, ih]

lemma AggInv_of_fields (n : Nat) (st st' : AggState) (settled : List (Nat × DayStat))
    (hP : AggInv n st settled)
    (h1 : st'.dayStats = st.dayStats) (h2 : st'.routingCount = st.routingCount)
    (h3 : st'.events.filter isCb = st.events.filter isCb) : AggInv n st' settled := by
  obtain ⟨hc, hl, he, hcb⟩ := hP
  refine ⟨by rw [h2, hc], by rw [h1, hl], ?_, by rw [h3, hcb, h1]⟩
  intro p hp
  rw [h1]
  exact he p hp

lemma settle_inv (n : Nat) (st : AggState) (settled : List (Nat × DayStat))
    (i : Nat) (v : DayStat)
    (hP : AggInv n st settled) (hlt : settled.length < n)
    (hfresh : ∀ p ∈ settled, p.1 ≠ i) :
    AggInv n (settleDay n st i v) (settled ++ [(i, v)]) := by
  obtain ⟨hc, hl, he, hcb⟩ := hP
  refine ⟨?_, ?_, ?_, ?_⟩
  · simp [settleDay, hc]
  · simp only [settleDay]
    rw [jsSet_length, hl, maxLenOf_append_single]
  · intro p hp
    rcases List.mem_append.mp hp with h1 | h2
    · exact jsSet_get?_other v st.dayStats i p.1 (hfresh p h1) (some p.2) (he p h1)
    · have : p = (i, v) := by simpa using h2
      rw [this]
      exact jsSet_get?_self v st.dayStats i
  · simp only [settleDay, List.filter_append, hcb]
    rw [if_neg (by omega)]
    by_cases hn : st.routingCount + 1 = n
    · rw [if_pos hn, if_pos (by rw [hc] at hn; simp; omega)]
      simp [isCb]
    · rw [if_neg hn, if_neg (by rw [hc] at hn; simp; omega)]
      simp

lemma processDay_inv (ravail : Bool) (n : Nat) (st : AggState)
    (settled : List (Nat × DayStat)) (i : Nat) (d : Day)
    (hP : AggInv n st settled)
    (hlt : isRoutable ravail d = false → settled.length < n)
    (hfresh : ∀ p ∈ settled, p.1 ≠ i) :
    AggInv n (processDay ravail n st i d)
      (settled ++ if isRoutable ravail d then [] else [(i, (⟨0, 0⟩ : DayStat))]) := by
  have hP1 : AggInv n
      { st with markers := st.markers ++ markerRecs i 0 d.locations,
                events := st.events ++ markerEvs i 0 d.locations } settled :=
    AggInv_of_fields n st _ settled hP rfl rfl
      (by simp [List.filter_append, markerEvs_filter_isCb])
  by_cases hr : isRoutable ravail d
  · simp only [processDay, hr, if_true, List.append_nil]
    exact AggInv_of_fields n _ _ settled hP1 rfl rfl
      (by simp [List.filter_append, isCb])
  · simp only [processDay, hr, if_false, Bool.false_eq_true]
    exact settle_inv n _ settled i ⟨0, 0⟩ hP1 (hlt (by simp [hr])) hfresh

lemma syncDays_inv (ravail : Bool) (n : Nat) :
    ∀ (days : List Day) (i : Nat) (st : AggState) (settled : List (Nat × DayStat)),
    AggInv n st settled →
    (∀ p ∈ settled, p.1 < i) →
    settled.length + (unroutables ravail i days).length ≤ n →
    AggInv n (syncDays ravail n st i days)
      (settled ++ (unroutables ravail i days).map (fun j => (j, (⟨0, 0⟩ : DayStat)))) := by
  intro days
  induction days with
  | nil =>
    intro i st settled hP _ _
    simpa [syncDays, unroutables] using hP
  | cons d ds ih =>
    intro i st settled hP hb hle
    rw [syncDays]
    by_cases hr : isRoutable ravail d
    · have hP1 := processDay_inv ravail n st settled i d hP
        (fun hf => absurd hr (by simp [hf])) (fun p hp => Nat.ne_of_lt (hb p hp))
      rw [if_pos hr, List.append_nil] at hP1
      have hu : unroutables ravail i (d :: ds) = unroutables ravail (i + 1) ds := by
        simp [unroutables, hr]
      rw [hu] at hle ⊢
      exact ih (i + 1) _ settled hP1 (fun p hp => Nat.lt_succ_of_lt (hb p hp)) hle
    · have hP1 := processDay_inv ravail n st settled i d hP
        (fun _ => by
          have : unroutables ravail i (d :: ds) = i :: unroutables ravail (i + 1) ds := by
            simp [unroutables, hr]
          rw [this] at hle
          simp at hle
          omega)
        (fun p hp => Nat.ne_of_lt (hb p hp))
      rw [if_neg hr] at hP1
      have hu : unroutables ravail i (d :: ds) = i :: unroutables ravail (i + 1) ds := by
        simp [unroutables, hr]
      rw [hu] at hle ⊢
      rw [List.map_cons, List.append_cons]
      refine ih (i + 1) _ (settled ++ [(i, ⟨0, 0⟩)]) hP1 ?_ ?_
      · intro p hp
        rcases List.mem_append.mp hp with h1 | h2
        · exact Nat.lt_succ_of_lt (hb p h1)
        · have hp2 : p = (i, (⟨0, 0⟩ : DayStat)) := by simpa using h2
          rw [hp2]
          exact Nat.lt_succ_self i
      · rw [List.length_append]
        simp only [List.length_cons] at hle
        simp
        omega

lemma foldl_routeFound_inv (n : Nat) :
    ∀ (comps : List (Nat × ℚ × ℚ)) (st : AggState) (settled : List (Nat × DayStat)),
    AggInv n st settled →
    settled.length + comps.length ≤ n →
    (∀ c ∈ comps, ∀ p ∈ settled, p.1 ≠ c.1) →
    (comps.map (fun c => c.1)).Nodup →
    AggInv n (comps.foldl (routeFound n) st)
      (settled ++ comps.map (fun c => (c.1, roundStat c.2.1 c.2.2))) := by
  intro comps
  induction comps with
  | nil => intro st settled hP _ _ _; simpa using hP
  | cons c cs ih =>
    intro st settled hP hle hfr hnd
    rw [List.foldl_cons]
    have hst := settle_inv n st settled c.1 (roundStat c.2.1 c.2.2) hP
      (by simp only [List.length_cons] at hle; omega)
      (fun p hp => hfr c (List.mem_cons_self c cs) p hp)
    rw [List.map_cons, List.append_cons]
    refine ih (routeFound n st c) (settled ++ [(c.1, roundStat c.2.1 c.2.2)]) hst ?_ ?_ ?_
    · rw [List.length_append]
      simp only [List.length_cons] at hle
      simp
      omega
    · intro c' hc' p hp
      rcases List.mem_append.mp hp with h1 | h2
      · exact hfr c' (List.mem_cons_of_mem c hc') p h1
      · have hp2 : p = (c.1, roundStat c.2.1 c.2.2) := by simpa using h2
        rw [hp2]
        simp only [List.map_cons, List.nodup_cons] at hnd
        intro habs
        exact hnd.1 (habs ▸ List.mem_map_of_mem (fun x => x.1) hc')
    · simp only [List.map_cons, List.nodup_cons] at hnd
      exact hnd.2

lemma routables_append_perm (ravail : Bool) :
    ∀ (days : List Day) (i : Nat),
      (routables ravail i days ++ unroutables ravail i days).Perm
        (List.range' i days.length) := by
  intro days
  induction days with
  | nil => intro i; simp [routables, unroutables]
  | cons d ds ih =>
    intro i
    rw [List.length_cons, List.range'_succ]
    by_cases hr : isRoutable ravail d
    · simp only [routables, unroutables, hr, if_true, List.nil_append]
      rw [List.cons_append]
      exact (ih (i + 1)).cons i
    · simp only [routables, unroutables, hr, if_false, Bool.false_eq_true, List.nil_append]
      exact List.perm_middle.trans ((ih (i + 1)).cons i)

lemma foldl_max_fst (s : List (Nat × DayStat)) :
    maxLenOf s = (s.map (fun p => p.1)).foldl (fun a j => max a (j + 1)) 0 := by
  rw [maxLenOf, List.foldl_map]

lemma foldl_max_range : ∀ (k : Nat),
    (List.range k).foldl (fun a j => max a (j + 1)) 0 = k := by
  intro k
  induction k with
  | zero => rfl
  | succ m ih =>
    rw [List.range_succ, List.foldl_append, ih]
    simp only [List.foldl_cons, List.foldl_nil]
    omega

lemma foldl_max_perm : ∀ {l1 l2 : List Nat}, l1.Perm l2 →
    ∀ b : Nat, l1.foldl (fun a j => max a (j + 1)) b = l2.foldl (fun a j => max a (j + 1)) b := by
  intro l1 l2 h
  induction h with
  | nil => intro b; rfl
  | cons x _ ih => intro b; simp only [List.foldl_cons, ih]
  | swap x y l =>
    intro b
    simp only [List.foldl_cons]
    have hmx : max (max b (y + 1)) (x + 1) = max (max b (x + 1)) (y + 1) := by omega
    rw [hmx]
  | trans _ _ ih1 ih2 => intro b; rw [ih1, ih2]

lemma maxLenOf_of_perm_range (s : List (Nat × DayStat)) (k : Nat)
    (h : (s.map (fun p => p.1)).Perm (List.range k)) :
    maxLenOf s = k := by
  rw [foldl_max_fst]
  rw [foldl_max_perm h 0]
  exact foldl_max_range k

/-- C1 (amended): for a non-empty itinerary, when every routable day's route
request fires `routesfound` exactly once (in any order) and every other day
is classified unroutable, the stats callback is invoked exactly once, with a
stats array of length `N` whose entry `i` holds the stat produced for day
`i` (the rounded route summary for routable days, `{0, 0}` for unroutable
ones), regardless of completion order.  (For the empty itinerary the
callback never fires, contrary to the original claim.) -/
theorem addMarkersToMap_single_callback (ravail : Bool) (itin : List Day)
    (comps : List (Nat × ℚ × ℚ))
    (hN : 1 ≤ itin.length)
    (hperm : (comps.map (fun c => c.1)).Perm (routables ravail 0 itin)) :
    ∃ ds : List (Option DayStat),
      (addMarkersToMap true ravail itin comps).events.filter isCb =
        [MapEvent.statsCallback ds] ∧
      ds.length = itin.length ∧
      (∀ j ∈ unroutables ravail 0 itin, ds.get? j = some (some ⟨0, 0⟩)) ∧
      (∀ c ∈ comps, ds.get? c.1 = some (some (roundStat c.2.1 c.2.2))) := by
  have hru := routables_append_perm ravail itin 0
  have hrulen : (routables ravail 0 itin).length + (unroutables ravail 0 itin).length =
      itin.length := by
    have h := hru.length_eq
    rw [List.length_append, List.length_range'] at h
    exact h
  have hrunodup : (routables ravail 0 itin ++ unroutables ravail 0 itin).Nodup := by
    rw [hru.nodup_iff]
    exact List.nodup_range' 0 itin.length
  have hP0 : AggInv itin.length initAgg [] := by
    refine ⟨rfl, rfl, by simp, ?_⟩
    rw [if_neg (by rw [List.length_nil]; omega)]
    rfl
  have hsync := syncDays_inv ravail itin.length itin 0 initAgg [] hP0 (by simp)
    (by rw [List.length_nil, Nat.zero_add]; omega)
  rw [List.nil_append] at hsync
  have hfitcb : (if (boundsOf itin).isEmpty then ([] : List MapEvent)
      else [MapEvent.fitBounds (boundsOf itin)]).filter isCb = [] := by
    split <;> rfl
  have hfit : AggInv itin.length (addMarkersSync ravail itin)
      ((unroutables ravail 0 itin).map (fun j => (j, (⟨0, 0⟩ : DayStat)))) := by
    refine AggInv_of_fields _ _ _ _ hsync rfl rfl ?_
    show ((syncDays ravail itin.length initAgg 0 itin).events ++
        (if (boundsOf itin).isEmpty then []
         else [MapEvent.fitBounds (boundsOf itin)])).filter isCb = _
    rw [List.filter_append, hfitcb, List.append_nil]
  have hdisj : ∀ c ∈ comps, ∀ p ∈
      (unroutables ravail 0 itin).map (fun j => (j, (⟨0, 0⟩ : DayStat))), p.1 ≠ c.1 := by
    intro c hc p hp
    obtain ⟨j, hj, hpj⟩ := List.mem_map.mp hp
    have hcr : c.1 ∈ routables ravail 0 itin :=
      hperm.mem_iff.mp (List.mem_map_of_mem (fun x => x.1) hc)
    rw [← hpj]
    intro habs
    have hdis := List.disjoint_of_nodup_append hrunodup
    exact hdis hcr (habs ▸ hj)
  have hnodup : (comps.map (fun c => c.1)).Nodup := by
    rw [hperm.nodup_iff]
    exact (List.nodup_append.mp hrunodup).1
  have h1 : comps.length = (routables ravail 0 itin).length := by
    have h := hperm.length_eq
    rwa [List.length_map] at h
  have hfinal := foldl_routeFound_inv itin.length comps (addMarkersSync ravail itin)
    ((unroutables ravail 0 itin).map (fun j => (j, (⟨0, 0⟩ : DayStat)))) hfit
    (by rw [List.length_map]; omega) hdisj hnodup
  obtain ⟨hc, hl, he, hcb⟩ := hfinal
  have hSFfst : (((unroutables ravail 0 itin).map (fun j => (j, (⟨0, 0⟩ : DayStat))) ++
      comps.map (fun c => (c.1, roundStat c.2.1 c.2.2))).map (fun p => p.1)).Perm
      (List.range itin.length) := by
    have h2 : ((unroutables ravail 0 itin).map (fun j => (j, (⟨0, 0⟩ : DayStat))) ++
        comps.map (fun c => (c.1, roundStat c.2.1 c.2.2))).map (fun p => p.1) =
        unroutables ravail 0 itin ++ comps.map (fun c => c.1) := by
      rw [List.map_append, List.map_map, List.map_map]
      congr 1
      exact List.map_id' _
    rw [h2, List.range_eq_range']
    exact ((hperm.append_left _).trans List.perm_append_comm).trans hru
  have hdslen := maxLenOf_of_perm_range _ itin.length hSFfst
  have hSFlen : ((unroutables ravail 0 itin).map (fun j => (j, (⟨0, 0⟩ : DayStat))) ++
      comps.map (fun c => (c.1, roundStat c.2.1 c.2.2))).length = itin.length := by
    rw [List.length_append, List.length_map, List.length_map]
    omega
  refine ⟨(comps.foldl (routeFound itin.length) (addMarkersSync ravail itin)).dayStats,
    ?_, ?_, ?_, ?_⟩
  · show (comps.foldl (routeFound itin.length) (addMarkersSync ravail itin)).events.filter
        isCb = _
    rw [hcb, if_pos (le_of_eq hSFlen.symm)]
  · rw [hl, hdslen]
  · intro j hj
    exact he (j, ⟨0, 0⟩) (List.mem_append_left _ (List.mem_map_of_mem _ hj))
  · intro c hc
    exact he (c.1, roundStat c.2.1 c.2.2)
      (List.mem_append_right _ (List.mem_map_of_mem _ hc))

/-- C1 witness: two days, the first unroutable (one location), the second
routable (two locations) completing with a 1000 m / 120 s route summary. -/
theorem addMarkersToMap_single_callback_witness :
    (1 ≤ itinMixed.length ∧
     (([((1 : Nat), ((1000 : ℚ), (120 : ℚ)))].map (fun c => c.1)).Perm
        (routables true 0 itinMixed))) ∧
    (∃ ds : List (Option DayStat),
      (addMarkersToMap true true itinMixed
          [(1, ((1000 : ℚ), (120 : ℚ)))]).events.filter isCb =
        [MapEvent.statsCallback ds] ∧
      ds.length = itinMixed.length ∧
      (∀ j ∈ unroutables true 0 itinMixed, ds.get? j = some (some ⟨0, 0⟩)) ∧
      (∀ c ∈ [((1 : Nat), ((1000 : ℚ), (120 : ℚ)))],
        ds.get? c.1 = some (some (roundStat c.2.1 c.2.2)))) :=
  ⟨⟨by decide, by
      show List.Perm [1] [1]
      exact List.Perm.refl _⟩,
   addMarkersToMap_single_callback true itinMixed [(1, ((1000 : ℚ), (120 : ℚ)))]
     (by decide)
     (by show List.Perm [1] [1]
         exact List.Perm.refl _)⟩

/-- C1 counterexample: for the empty itinerary the stats callback is never
invoked (zero invocations, not exactly one), because the counter check only
runs inside the per-day handlers. -/
theorem addMarkersToMap_empty_no_callback :
    (addMarkersToMap true true ([] : List Day) []).events.filter isCb = [] ∧
    ((addMarkersToMap true true ([] : List Day) []).events.filter isCb).length ≠ 1 := by
  exact ⟨rfl, by decide⟩

/-- C2: when the map capability is unavailable, `addMarkersToMap` returns at
its guard without doing anything: no markers, no events, and in particular
the caller-supplied stats callback is never invoked — the code does not
fulfill the claimed all-zero stats-callback contract. -/
theorem addMarkersToMap_unavailable_no_callback :
    (addMarkersToMap false true itinMixed []).events = [] ∧
    (addMarkersToMap false true itinMixed []).events.filter isCb = [] ∧
    (addMarkersToMap false true itinMixed []).markers = [] :=
  ⟨rfl, rfl, rfl⟩

/-- C3: a marker tagged `(1, 0)` exists (two days of three locations each),
but `highlightMarker 1 0` is a no-op because its guard indexes the packed
marker array at `1 * 10 + 0 = 10`, past its end — the tagged-marker scan
below the guard is never reached. -/
theorem highlightMarker_guard_noop :
    (∃ m ∈ (addMarkersToMap true false itinTwoByThree []).markers,
       m.dayIndex = 1 ∧ m.locIndex = 0) ∧
    highlightMarker (addMarkersToMap true false itinTwoByThree []).markers 1 0 = none := by
  exact ⟨by decide, by decide⟩

lemma markerEvs_filter_self (t : Nat) :
    ∀ (j : Nat) (locs : List Location),
      (markerEvs t j locs).filter (isDayMR t) = markerEvs t j locs := by
  intro j locs
  induction locs generalizing j with
  | nil => rfl
  | cons x xs ih => simp [markerEvs, isDayMR, ih]

lemma markerEvs_filter_ne (t i : Nat) (h : i ≠ t) :
    ∀ (j : Nat) (locs : List Location),
      (markerEvs i j locs).filter (isDayMR t) = [] := by
  intro j locs
  induction locs generalizing j with
  | nil => rfl
  | cons x xs ih => simp [markerEvs, isDayMR, h, ih]

lemma processDay_filter (ravail : Bool) (n t : Nat) (st : AggState) (i : Nat) (d : Day) :
    (processDay ravail n st i d).events.filter (isDayMR t) =
      st.events.filter (isDayMR t) ++ (if i = t then dayBlock ravail t d else []) := by
  simp only [processDay]
  by_cases hr : isRoutable ravail d
  · rw [if_pos hr]
    show ((st.events ++ markerEvs i 0 d.locations) ++ [MapEvent.routeRequested i]).filter
        (isDayMR t) = _
    rw [List.filter_append, List.filter_append]
    by_cases hit : i = t
    · subst hit
      rw [if_pos rfl, markerEvs_filter_self]
      simp [dayBlock, isDayMR, hr, List.append_assoc]
    · rw [if_neg hit, markerEvs_filter_ne t i hit]
      simp [isDayMR, hit]
  · rw [if_neg hr]
    simp only [settleDay]
    show ((st.events ++ markerEvs i 0 d.locations) ++
        (if st.routingCount + 1 = n then
          [MapEvent.statsCallback (jsSet st.dayStats i ⟨0, 0⟩)] else [])).filter
        (isDayMR t) = _
    rw [List.filter_append, List.filter_append]
    have hcb : (if st.routingCount + 1 = n then
        [MapEvent.statsCallback (jsSet st.dayStats i ⟨0, 0⟩)] else ([] : List MapEvent)).filter
        (isDayMR t) = [] := by
      split <;> rfl
    rw [hcb, List.append_nil]
    by_cases hit : i = t
    · subst hit
      rw [if_pos rfl, markerEvs_filter_self]
      simp [dayBlock, hr]
    · rw [if_neg hit, markerEvs_filter_ne t i hit, List.append_nil]

lemma syncDays_filter (ravail : Bool) (n t : Nat) :
    ∀ (days : List Day) (i : Nat) (st : AggState),
      (syncDays ravail n st i days).events.filter (isDayMR t) =
        st.events.filter (isDayMR t) ++
          (if i ≤ t then
            (match days.get? (t - i) with
             | some d => dayBlock ravail t d
             | none => ([] : List MapEvent))
           else []) := by
  intro days
  induction days with
  | nil =>
    intro i st
    show st.events.filter (isDayMR t) = _
    rw [show (([] : List Day).get? (t - i)) = none from rfl]
    split <;> simp
  | cons d ds ih =>
    intro i st
    rw [syncDays, ih (i + 1), processDay_filter, List.append_assoc]
    congr 1
    rcases Nat.lt_trichotomy i t with hlt | heq | hgt
    · rw [if_neg (by omega), if_pos (by omega), if_pos (by omega), List.nil_append]
      have hsub : t - i = (t - (i + 1)) + 1 := by omega
      rw [hsub, List.get?_cons_succ]
    · subst heq
      rw [if_pos rfl, if_neg (by omega), if_pos (le_refl i), Nat.sub_self,
        List.get?_cons_zero, List.append_nil]
    · rw [if_neg (by omega), if_neg (by omega), if_neg (by omega), List.append_nil]

lemma foldl_routeFound_events (n : Nat) :
    ∀ (comps : List (Nat × ℚ × ℚ)) (st : AggState),
      ∃ ex : List MapEvent,
        (comps.foldl (routeFound n) st).events = st.events ++ ex ∧
        ex.filter isMR = [] ∧ ∀ t, ex.filter (isDayMR t) = [] := by
  intro comps
  induction comps with
  | nil => intro st; exact ⟨[], by simp, rfl, fun _ => rfl⟩
  | cons c cs ih =>
    intro st
    obtain ⟨ex, hev, hmr, hd⟩ := ih (routeFound n st c)
    refine ⟨(if st.routingCount + 1 = n then
        [MapEvent.statsCallback (jsSet st.dayStats c.1 (roundStat c.2.1 c.2.2))]
      else []) ++ ex, ?_, ?_, ?_⟩
    · rw [List.foldl_cons, hev]
      show (st.events ++ _) ++ ex = _
      rw [List.append_assoc]
    · rw [List.filter_append, hmr, List.append_nil]
      split <;> rfl
    · intro t
      rw [List.filter_append, hd t, List.append_nil]
      split <;> rfl

/-- C9 (amended): within one `addMarkersToMap` run, each day's markers are
all placed before that day's own route request is issued (the filtered
per-day trace is exactly markers-then-request), and the viewport
bounds-fitting happens after every marker placement and route issuance (no
marker or route-request event follows it); but markers of later days are
placed after route requests of earlier days, and bounds-fitting follows the
route requests, contrary to the original claim. -/
theorem addMarkersToMap_per_day_order (ravail : Bool) (itin : List Day)
    (comps : List (Nat × ℚ × ℚ)) (t : Nat) (day : Day)
    (ht : itin.get? t = some day) :
    (addMarkersToMap true ravail itin comps).events.filter (isDayMR t) =
      dayBlock ravail t day ∧
    (boundsOf itin = [] ∨
      ∃ pre post, (addMarkersToMap true ravail itin comps).events =
          pre ++ MapEvent.fitBounds (boundsOf itin) :: post ∧
        post.filter isMR = []) := by
  obtain ⟨ex, hev, hmr, hd⟩ :=
    foldl_routeFound_events itin.length comps (addMarkersSync ravail itin)
  have hAM : (addMarkersToMap true ravail itin comps).events =
      (addMarkersSync ravail itin).events ++ ex := hev
  have hfitf : ∀ s : Nat, (if (boundsOf itin).isEmpty then ([] : List MapEvent)
      else [MapEvent.fitBounds (boundsOf itin)]).filter (isDayMR s) = [] := by
    intro s
    split <;> rfl
  constructor
  · rw [hAM, List.filter_append, hd t, List.append_nil]
    show ((syncDays ravail itin.length initAgg 0 itin).events ++
        (if (boundsOf itin).isEmpty then []
         else [MapEvent.fitBounds (boundsOf itin)])).filter (isDayMR t) = _
    rw [List.filter_append, hfitf, List.append_nil,
      syncDays_filter ravail itin.length t itin 0 initAgg]
    rw [show (initAgg.events.filter (isDayMR t)) = [] from rfl]
    rw [if_pos (Nat.zero_le t), Nat.sub_zero, ht, List.nil_append]
  · by_cases hb : boundsOf itin = []
    · exact Or.inl hb
    · right
      refine ⟨(syncDays ravail itin.length initAgg 0 itin).events, ex, ?_, hmr⟩
      rw [hAM]
      show ((syncDays ravail itin.length initAgg 0 itin).events ++
          (if (boundsOf itin).isEmpty then []
           else [MapEvent.fitBounds (boundsOf itin)])) ++ ex = _
      rw [if_neg (fun h => hb (List.isEmpty_iff.mp h)), List.append_assoc]
      rfl

/-- C9 counterexample: with two routable days, the route request of day 0 is
issued (trace position 2) before the markers of day 1 are placed (trace
position 3), so marker placement and bounds-fitting do not all complete
before the first route request. -/
theorem addMarkersToMap_route_before_marker :
    (addMarkersToMap true true itinTwoByTwo []).events.get? 2 =
      some (MapEvent.routeRequested 0) ∧
    (addMarkersToMap true true itinTwoByTwo []).events.get? 3 =
      some (MapEvent.markerAdded 1 0) := by
  exact ⟨by decide, by decide⟩

/-- C9 witness: the per-day trace of day 1 in a concrete two-day run. -/
theorem addMarkersToMap_per_day_order_witness :
    itinTwoByTwo.get? 1 = some dayTwoLocB ∧
    ((addMarkersToMap true true itinTwoByTwo []).events.filter (isDayMR 1) =
        dayBlock true 1 dayTwoLocB ∧
     (boundsOf itinTwoByTwo = [] ∨
       ∃ pre post, (addMarkersToMap true true itinTwoByTwo []).events =
           pre ++ MapEvent.fitBounds (boundsOf itinTwoByTwo) :: post ∧
         post.filter isMR = [])) :=
  ⟨rfl, addMarkersToMap_per_day_order true itinTwoByTwo [] 1 dayTwoLocB rfl⟩
